import Mathlib

/-!
Verification of the route-poi-finder program (`src/main.go`).

The Go source is shallowly embedded: Go `map[string]interface{}` tag maps
become association lists over a `TagVal` sum type, Go `float64` coordinates
become `ℚ` (the program only ever compares, adds and divides finite
coordinate values), fallible Go functions become `Except String`, and the
side-effecting cache layer becomes explicit state passing over a
`FetchState` record plus a list of pending network responses.
-/

/-- A JSON-decoded tag value, the embedding of the dynamic `interface{}`
values held in an element tag map (`tags: {string: any}`). -/
inductive TagVal where
  | str (s : String)
  | num (q : ℚ)
  | boolean (b : Bool)
  | null
deriving DecidableEq

/-- `true` exactly when the dynamic value is a string, the embedding of a
successful Go type assertion `v.(string)`. -/
def TagVal.isString : TagVal → Bool
  | TagVal.str _ => true
  | _ => false

/-- A Go `map[string]interface{}` tag map, embedded as an association list
(keys are unique in any map produced by JSON decoding; `lookupTag` takes the
first binding, matching Go map lookup). -/
def Tags : Type := List (String × TagVal)

instance : DecidableEq Tags := inferInstanceAs (DecidableEq (List (String × TagVal)))

instance : Membership (String × TagVal) Tags :=
  inferInstanceAs (Membership (String × TagVal) (List (String × TagVal)))

/-- Go map read `tags[k]`. -/
def lookupTag (tags : Tags) (k : String) : Option TagVal := List.lookup k tags

/-- The fixed ordered priority list of tag keys scanned by `resolveName`
(src/main.go:702-712). -/
def nameTags : List String :=
  ["name", "amenity", "tourism", "leisure", "shop", "waterway", "natural", "boundary"]

/-- The scanning loop of `resolveName` (src/main.go:702-717): for each key in
order, the two-result type assertion `n, ok := tags[tag].(string)` succeeds
only when the key is present with a string value. -/
def resolveNameAux (tags : Tags) : List String → Except String String
  | [] => Except.error "no suitable tag for name"
  | t :: rest =>
    match lookupTag tags t with
    | some (TagVal.str n) => Except.ok n
    | _ => resolveNameAux tags rest

/-- `resolveName` (src/main.go:701-719). -/
def resolveName (tags : Tags) : Except String String := resolveNameAux tags nameTags

/-- Specification restatement (spec.md section 4.6): name resolution returns
the first key in the fixed priority list that is present with a string value,
else fails. Independent restatement that `resolveName` is compared with. -/
def specResolveName (tags : Tags) : Except String String :=
  match nameTags.findSome? (fun t =>
      match lookupTag tags t with
      | some (TagVal.str n) => some n
      | _ => none) with
  | some n => Except.ok n
  | none => Except.error "no suitable tag for name"

/-- The ordered symbol matcher table of `resolveSymbol` (src/main.go:723-758).
Each entry pairs the key/value requirements (all must match) with the symbol. -/
def symbolMatchers : List (List (String × String) × String) :=
  [ ([("shop", "convenience")], "Shopping Center"),
    ([("shop", "supermarket")], "Shopping Center"),
    ([("leisure", "park")], "Park"),
    ([("boundary", "protected_area")], "Park"),
    ([("amenity", "toilets")], "Restroom"),
    ([("amenity", "drinking_water")], "Drinking Water"),
    ([("natural", "peak")], "Summit"),
    ([("natural", "saddle")], "Summit"),
    ([("mountain_pass", "yes")], "Summit"),
    ([("tourism", "viewpoint")], "Scenic Area"),
    ([("amenity", "bicycle_repair_station")], "Mine"),
    ([("amenity", "fast_food")], "Fast Food"),
    ([("amenity", "fuel")], "Gas Station"),
    ([("amenity", "pub")], "Bar"),
    ([("amenity", "bar")], "Bar"),
    ([("amenity", "cafe")], "Restaurant"),
    ([("tourism", "picnic_site")], "Picnic Area"),
    ([("amenity", "restaurant"), ("cuisine", "pizza")], "Pizza"),
    ([("amenity", "restaurant")], "Restaurant"),
    ([("amenity", "ice_cream")], "Fast Food"),
    ([("tourism", "camp_pitch")], "Campground"),
    ([("tourism", "camp_site")], "Campground"),
    ([("leisure", "nature_reserve")], "Park"),
    ([("amenity", "shelter")], "Building"),
    ([("amenity", "place_of_worship")], "Church"),
    ([("place", "town")], "City Hall"),
    ([("place", "village")], "City Hall"),
    ([("place", "hamlet")], "City Hall"),
    ([("place", "city")], "City Hall"),
    ([("place", "neighbourhood")], "City Hall"),
    ([("waterway", "river")], "Water Source") ]

/-- The inner matching loop of `resolveSymbol` (src/main.go:759-766): every
required key must be present and its dynamic value equal (as `interface{}`)
to the required string. -/
def matcherMatches (tags : Tags) (reqs : List (String × String)) : Bool :=
  reqs.all (fun kv =>
    match lookupTag tags kv.1 with
    | some v => v == TagVal.str kv.2
    | none => false)

/-- The outer loop of `resolveSymbol` (src/main.go:721-773): first fully
matching entry wins, otherwise the zero-value empty string. -/
def resolveSymbolAux (tags : Tags) : List (List (String × String) × String) → String
  | [] => ""
  | m :: rest => if matcherMatches tags m.1 then m.2 else resolveSymbolAux tags rest

/-- `resolveSymbol` (src/main.go:721-773). -/
def resolveSymbol (tags : Tags) : String := resolveSymbolAux tags symbolMatchers

/-- Specification restatement (spec.md section 4.6): the first fully-satisfied
rule in the fixed ordered list wins; no match yields the empty symbol.
Independent restatement that `resolveSymbol` is compared with. -/
def specResolveSymbol (tags : Tags) : String :=
  match symbolMatchers.find? (fun m => matcherMatches tags m.1) with
  | some m => m.2
  | none => ""


/-- Byte-lexicographic strict string comparison, the embedding of Go `<` on
strings (Go compares strings byte-wise; on UTF-8 text this coincides with
code-point lexicographic order). -/
def charListLt : List Char → List Char → Bool
  | [], [] => false
  | [], _ :: _ => true
  | _ :: _, [] => false
  | a :: as, b :: bs => if a < b then true else if b < a then false else charListLt as bs

/-- Go string `<` via the underlying character sequences. -/
def strLtB (s t : String) : Bool := charListLt s.data t.data

/-- Rational `<` (the embedding of Go float64 `<` on finite coordinates) as
a Boolean comparison. -/
def ratLtB (a b : ℚ) : Bool := decide (a < b)

/-- Lexicographic combination of two Boolean comparators on a product. -/
def lexLt {α β : Type} (c₁ : α → α → Bool) (c₂ : β → β → Bool) (a b : α × β) : Bool :=
  if c₁ a.1 b.1 then true else if c₁ b.1 a.1 then false else c₂ a.2 b.2

/-- Asymmetry of a Boolean strict comparison. -/
def IsAsymmB {α : Type} (c : α → α → Bool) : Prop :=
  ∀ a b : α, c a b = true → c b a = false

/-- Transitivity of a Boolean strict comparison. -/
def IsTransB {α : Type} (c : α → α → Bool) : Prop :=
  ∀ a b d : α, c a b = true → c b d = true → c a d = true

/-- Incomparability implies equality: the comparison is total up to `=`. -/
def IsConnB {α : Type} (c : α → α → Bool) : Prop :=
  ∀ a b : α, c a b = false → c b a = false → a = b

/-- The output POI record (src/main.go:262-269); coordinates as `ℚ`. -/
structure Point where
  name : String
  lat : ℚ
  lon : ℚ
  description : String
  symbol : String
deriving DecidableEq

/-- The `less` closure passed to `sort.Slice` in `mainErr`
(src/main.go:381-398), field for field. -/
def poiLess (p q : Point) : Bool :=
  if p = q then false
  else if p.name ≠ q.name then strLtB p.name q.name
  else if p.description ≠ q.description then strLtB p.description q.description
  else if p.symbol ≠ q.symbol then strLtB p.symbol q.symbol
  else if p.lat ≠ q.lat then decide (p.lat < q.lat)
  else decide (p.lon < q.lon)

/-- The five sort fields of a POI in comparison order. -/
def pointKey (p : Point) : String × String × String × ℚ × ℚ :=
  (p.name, p.description, p.symbol, p.lat, p.lon)

/-- Lexicographic strict comparison of the five sort fields. -/
def pointKeyLt :
    (String × String × String × ℚ × ℚ) → (String × String × String × ℚ × ℚ) → Bool :=
  lexLt strLtB (lexLt strLtB (lexLt strLtB (lexLt ratLtB ratLtB)))

/-- The sortedness relation induced by the `sort.Slice` comparator: `p` may
precede `q` exactly when the comparator does not strictly order `q` before
`p` (Go's sort postcondition). -/
def poiLE (p q : Point) : Prop := poiLess q p = false

instance : DecidableRel poiLE := fun p q => inferInstanceAs (Decidable (poiLess q p = false))

/-- The sorting step in `mainErr` (src/main.go:381-398). Go's `sort.Slice`
guarantees a permutation of the input that is sorted for the supplied
comparator; since `poiLE` is total, transitive, and antisymmetric, that
result is unique, so it is embedded as insertion sort for `poiLE`. -/
def sortPois (l : List Point) : List Point := List.insertionSort poiLE l

/-- A coordinate pair (src/main.go:250-253). -/
structure LatLon where
  lat : ℚ
  lon : ℚ
deriving DecidableEq

/-- Key order used by Go `encoding/json` when marshalling a map (keys
ascending). -/
def tagKeyLE (a b : String × TagVal) : Prop := strLtB b.1 a.1 = false

instance : DecidableRel tagKeyLE := fun a b =>
  inferInstanceAs (Decidable (strLtB b.1 a.1 = false))

/-- JSON rendering of a tag value for the POI description. String escaping
and Go float formatting are not reproduced; no claim depends on the rendered
description text, only on it being a deterministic function of the tags. -/
def tagValJson : TagVal → String
  | TagVal.str s => "\"" ++ s ++ "\""
  | TagVal.num q => toString q
  | TagVal.boolean b => if b then "true" else "false"
  | TagVal.null => "null"

/-- `json.Marshal(tags)` building the POI description (src/main.go:451):
Go marshals maps with keys in ascending order; it cannot fail on
JSON-decoded values. -/
def marshalTags (tags : Tags) : String :=
  "\x7b" ++ String.intercalate ","
      ((List.insertionSort tagKeyLE tags).map
        (fun kv => "\"" ++ kv.1 ++ "\":" ++ tagValJson kv.2))
    ++ "\x7d"

/-- Increment of an occurrence counter map entry (`m[k]++`). -/
def bump (m : List (String × Nat)) (k : String) : List (String × Nat) :=
  if (List.lookup k m).isSome then
    m.map (fun kv => if kv.1 = k then (kv.1, kv.2 + 1) else kv)
  else m ++ [(k, 1)]

/-- The statistics accumulation loop of the `point()` closure
(src/main.go:455-458). `none` models the Go panic of the unguarded type
assertion `value.(string)` on a non-string dynamic value. Go map iteration
order is unspecified and the embedding iterates insertion order; whether the
loop panics does not depend on that order. -/
def statsLoop (acc : List (String × Nat) × List (String × Nat)) :
    List (String × TagVal) → Option (List (String × Nat) × List (String × Nat))
  | [] => some acc
  | (tag, TagVal.str s) :: rest => statsLoop (bump acc.1 tag, bump acc.2 (tag ++ ":" ++ s)) rest
  | _ :: _ => none

/-- The three ways one call of the closure returned by `point()` can end. -/
inductive callResult where
  | panicked
  | errored (e : String)
  | ok (p : Point)
deriving DecidableEq

/-- One call of the POI-construction closure returned by `point()`
(src/main.go:446-467): resolve the name, marshal the description, accumulate
tag statistics (where a non-string value panics), then build the `Point`. -/
def pointCall (tags : Tags) (latLon : LatLon) : callResult :=
  match resolveName tags with
  | Except.error e => callResult.errored ("resolving name from tags: " ++ e)
  | Except.ok name =>
    match statsLoop ([], []) tags with
    | none => callResult.panicked
    | some _ =>
      callResult.ok
        { name := name, lat := latLon.lat, lon := latLon.lon,
          description := marshalTags tags, symbol := resolveSymbol tags }

/-- The Go `condition` struct (src/main.go:39-45); the field `exists` is
renamed `existsMode` (`ExistsUndefined`/`ExistsYes`/`ExistsNo` = 0/1/2). -/
structure condition where
  tag : String
  distance : Int
  values : List String
  notValues : List String
  existsMode : Nat
deriving DecidableEq

/-- Go `%+v` rendering of a `condition`, as interpolated into the validation
error messages. -/
def condRepr (c : condition) : String :=
  "\x7btag:" ++ c.tag ++ " distance:" ++ toString c.distance
    ++ " values:[" ++ String.intercalate " " c.values
    ++ "] notValues:[" ++ String.intercalate " " c.notValues
    ++ "] exists:" ++ toString c.existsMode ++ "\x7d"

/-- Error for a condition with more than one defined mode (src/main.go:617). -/
def tooManyMsg (c : condition) : String :=
  "query element must contain only one condition: \x27not\x27, \x27values\x27 or \x27exists\x27: "
    ++ condRepr c

/-- Error for a condition with no defined mode (src/main.go:637). -/
def noCondMsg (c : condition) : String :=
  "query element contains no conditions: " ++ condRepr c

/-- Error for an exists flag outside 0/1/2 (src/main.go:634). -/
def unsupportedMsg (c : condition) : String :=
  "unsupported exists value: " ++ toString c.existsMode

/-- Validation and rendering of one condition inside `queryResponseElements`
(src/main.go:605-638): count the defined modes, reject more than one, then
render value-set, value-exclusion, or existence filters. -/
def renderCond (c : condition) : Except String (List String) :=
  let defined := [decide (c.notValues.length > 0), decide (c.values.length > 0),
      decide (c.existsMode ≠ 0)].count true
  if defined > 1 then Except.error (tooManyMsg c)
  else if c.values.length > 0 then
    Except.ok [c.tag ++ "~\"^(" ++ String.intercalate "|" c.values ++ ")$\""]
  else if c.notValues.length > 0 then
    Except.ok (c.notValues.map (fun v => c.tag ++ "!=\"" ++ v ++ "\""))
  else if c.existsMode ≠ 0 then
    if c.existsMode = 1 then Except.ok [c.tag]
    else if c.existsMode = 2 then Except.ok ["!" ++ c.tag]
    else Except.error (unsupportedMsg c)
  else Except.error (noCondMsg c)

/-- The condition loop of `queryResponseElements` (src/main.go:605-644):
conditions are validated and rendered left to right, the first error aborts,
and the rendered filter strings accumulate in condition-list order. -/
def renderConds : List condition → Except String (List String)
  | [] => Except.ok []
  | c :: rest =>
    match renderCond c with
    | Except.error e => Except.error e
    | Except.ok fs =>
      match renderConds rest with
      | Except.error e => Except.error e
      | Except.ok fss => Except.ok (fs ++ fss)

/-- The query-text construction of `queryResponseElements`
(src/main.go:602-647): header, element kind, one bracketed filter per
rendered condition string in condition-list order, then the route clause. -/
def renderQuery (queryType : String) (queryConditions : List condition) (route : String) :
    Except String String :=
  match renderConds queryConditions with
  | Except.error e => Except.error e
  | Except.ok filters =>
    Except.ok ("[out:json];" ++ queryType
      ++ String.join (filters.map (fun f => "[" ++ f ++ "]")) ++ route)

/-- The claim-side well-formedness predicate: exactly one active mode
(value-set, value-exclusion, or a defined existence flag). -/
def exactlyOneMode (c : condition) : Prop :=
  (c.values ≠ [] ∧ c.notValues = [] ∧ c.existsMode = 0) ∨
  (c.values = [] ∧ c.notValues ≠ [] ∧ c.existsMode = 0) ∨
  (c.values = [] ∧ c.notValues = [] ∧ (c.existsMode = 1 ∨ c.existsMode = 2))

instance : DecidablePred exactlyOneMode := fun c => by
  unfold exactlyOneMode; infer_instance

/-- Specification restatement (spec.md section 4.2): the filters a
well-formed condition renders to — an anchored alternation for a value set,
one inequality per excluded value, a bare or negated presence filter for
existence. -/
def conditionFilters (c : condition) : List String :=
  if c.values ≠ [] then [c.tag ++ "~\"^(" ++ String.intercalate "|" c.values ++ ")$\""]
  else if c.notValues ≠ [] then c.notValues.map (fun v => c.tag ++ "!=\"" ++ v ++ "\"")
  else if c.existsMode = 1 then [c.tag]
  else if c.existsMode = 2 then ["!" ++ c.tag]
  else []

/-- The validation error an invalid condition produces. -/
def condFailMsg (c : condition) : String :=
  if [decide (c.notValues.length > 0), decide (c.values.length > 0),
      decide (c.existsMode ≠ 0)].count true > 1 then tooManyMsg c
  else if c.values = [] ∧ c.notValues = [] ∧ c.existsMode = 0 then noCondMsg c
  else unsupportedMsg c

/-- A decoded upstream element (src/main.go:239-246); coordinates as `ℚ`. -/
structure element where
  type : String
  id : Int
  lat : ℚ
  lon : ℚ
  nodes : List Int
  tags : Tags
deriving DecidableEq

/-- A resolved polyline centroid record (src/main.go:255-259). -/
structure wayCentre where
  id : Int
  centre : LatLon
  tags : Tags
deriving DecidableEq

/-- Go map write `m[k] = v` (last write wins), on an association list. -/
def upsert (m : List (Int × element)) (k : Int) (v : element) : List (Int × element) :=
  if (List.lookup k m).isSome then
    m.map (fun kv => if kv.1 = k then (kv.1, v) else kv)
  else m ++ [(k, v)]

/-- The partitioning loop of `wayCentres` (src/main.go:565-576): nodes and
ways into id-indexed maps, any other element type is an error (the Go message
also interpolates the element value, elided here). -/
def partitionElems (acc : List (Int × element) × List (Int × element)) :
    List element → Except String (List (Int × element) × List (Int × element))
  | [] => Except.ok acc
  | e :: rest =>
    if e.type = "node" then partitionElems (upsert acc.1 e.id e, acc.2) rest
    else if e.type = "way" then partitionElems (acc.1, upsert acc.2 e.id e) rest
    else Except.error ("unknown element type: " ++ e.type)

/-- The centroid accumulation loop over one way's referenced node ids
(src/main.go:584-591): each id must resolve in the node map; each resolved
node contributes `lat/n` and `lon/n` for `n` the way's node count. -/
def centreLoop (nodes : List (Int × element)) (n : Nat) (acc : LatLon) :
    List Int → Except String LatLon
  | [] => Except.ok acc
  | i :: rest =>
    match List.lookup i nodes with
    | none => Except.error ("node " ++ toString i ++ " not found")
    | some nd => centreLoop nodes n ⟨acc.lat + nd.lat / (n : ℚ), acc.lon + nd.lon / (n : ℚ)⟩ rest

/-- Processing of one way inside the `wayCentres` loop (src/main.go:579-597):
a way with zero referenced nodes is an error, otherwise its centroid record. -/
def wayCentreOf (nodes : List (Int × element)) (way : element) : Except String wayCentre :=
  if way.nodes.length = 0 then Except.error ("no nodes for way " ++ toString way.id)
  else
    match centreLoop nodes way.nodes.length ⟨0, 0⟩ way.nodes with
    | Except.error e => Except.error e
    | Except.ok c => Except.ok ⟨way.id, c, way.tags⟩

/-- `wayCentres` after the response has been decoded (src/main.go:559-600),
with the query layer factored out: partition the batch, then resolve every
way in the way map. Go iterates the way map in unspecified order; the
embedding iterates insertion order — whether the function fails does not
depend on the order. -/
def wayCentresLoop (ns : List (Int × element)) :
    List (Int × element) → Except String (List wayCentre)
  | [] => Except.ok []
  | kv :: rest =>
    match wayCentreOf ns kv.2 with
    | Except.error e => Except.error e
    | Except.ok wc =>
      match wayCentresLoop ns rest with
      | Except.error e => Except.error e
      | Except.ok wcs => Except.ok (wc :: wcs)

/-- `wayCentres` continued: the way loop producing one centroid per way. -/
def wayCentres (elems : List element) : Except String (List wayCentre) :=
  match partitionElems ([], []) elems with
  | Except.error e => Except.error e
  | Except.ok (ns, ws) => wayCentresLoop ns ws

/-- The Go constant `split` (src/main.go:24). -/
def split : Nat := 1

/-- The chunking loop of `mainErr` (src/main.go:324-330):
`for i := 0; i < len(pts); i += chunkSize { splits = append(splits,
pts[i:min(i+chunkSize, len)]) }`. Every call site passes `cs ≥ 1`, for which
`(p :: rest).drop cs = rest.drop (cs - 1)`. -/
def chunkLoop (cs : Nat) : List LatLon → List (List LatLon)
  | [] => []
  | p :: rest => (p :: rest).take cs :: chunkLoop cs (rest.drop (cs - 1))
termination_by l => l.length
decreasing_by
  simp only [List.length_drop, List.length_cons]
  omega

/-- The chunk-size computation and chunking of `mainErr`
(src/main.go:319-330). -/
def buildSplits (pts : List LatLon) : List (List LatLon) :=
  let chunkSize := if pts.length / split < 1 then 1 else pts.length / split
  chunkLoop chunkSize pts

/-- The per-chunk loop of `mainErr` (src/main.go:334-426) with the whole
chunk body abstracted as `f`: each chunk is processed in order, the first
error aborts, and with no chunks the loop body never runs and `mainErr`
returns success. -/
def processRoute {γ : Type} (f : List LatLon → Except String γ) (pts : List LatLon) :
    Except String (List γ) :=
  (buildSplits pts).mapM f

/-- `queryRouteComponent` (src/main.go:505-542), with the fixed 6-decimal
float rendering abstracted as `fmtF`: an empty chunk is an error, otherwise
the around-clause over the chunk coordinates in order followed by the fixed
recursion and output clauses. -/
def queryRouteComponent (fmtF : ℚ → String) (locus : Int) (route : List LatLon) :
    Except String String :=
  if route.length = 0 then Except.error "no route points provided"
  else
    Except.ok ("(around:" ++ toString locus ++ ","
      ++ String.intercalate "," (route.map (fun p => fmtF p.lat ++ "," ++ fmtF p.lon))
      ++ ");\n(._;>;);\nout meta;")

/-- 32-bit left rotation on `Nat` values below `2^32`. -/
def rotl32 (k n : Nat) : Nat := ((n <<< k) ||| (n >>> (32 - k))) % 4294967296

/-- Big-endian 8-byte rendering of a 64-bit value. -/
def beBytes8 (n : Nat) : List Nat :=
  [(n >>> 56) % 256, (n >>> 48) % 256, (n >>> 40) % 256, (n >>> 32) % 256,
   (n >>> 24) % 256, (n >>> 16) % 256, (n >>> 8) % 256, n % 256]

/-- Big-endian 4-byte rendering of a 32-bit value. -/
def beBytes4 (n : Nat) : List Nat :=
  [(n >>> 24) % 256, (n >>> 16) % 256, (n >>> 8) % 256, n % 256]

/-- SHA-1 message padding: `0x80`, zeros to 56 mod 64, 8-byte bit length. -/
def sha1Pad (msg : List Nat) : List Nat :=
  msg ++ [128] ++ List.replicate ((120 - ((msg.length + 1) % 64)) % 64) 0
    ++ beBytes8 (msg.length * 8)

/-- Big-endian 32-bit words of a byte sequence. -/
def toWords : List Nat → List Nat
  | b0 :: b1 :: b2 :: b3 :: rest =>
    ((((b0 <<< 8) ||| b1) <<< 8 ||| b2) <<< 8 ||| b3) :: toWords rest
  | _ => []

/-- SHA-1 message schedule: extend 16 words to 80. -/
def sha1ExtendLoop : Nat → List Nat → List Nat
  | 0, ws => ws
  | k + 1, ws =>
    sha1ExtendLoop k (ws ++ [rotl32 1 (ws.getD (ws.length - 3) 0 ^^^ ws.getD (ws.length - 8) 0
      ^^^ ws.getD (ws.length - 14) 0 ^^^ ws.getD (ws.length - 16) 0)])

/-- The five SHA-1 chaining words. -/
structure SHA1State where
  h0 : Nat
  h1 : Nat
  h2 : Nat
  h3 : Nat
  h4 : Nat

/-- SHA-1 round function. -/
def sha1F (t b c d : Nat) : Nat :=
  if t < 20 then (b &&& c) ||| ((b ^^^ 4294967295) &&& d)
  else if t < 40 then b ^^^ c ^^^ d
  else if t < 60 then (b &&& c) ||| (b &&& d) ||| (c &&& d)
  else b ^^^ c ^^^ d

/-- SHA-1 round constants. -/
def sha1K (t : Nat) : Nat :=
  if t < 20 then 0x5A827999
  else if t < 40 then 0x6ED9EBA1
  else if t < 60 then 0x8F1BBCDC
  else 0xCA62C1D6

/-- One SHA-1 round on the working state. -/
def sha1Round (ws : List Nat) (st : Nat × Nat × Nat × Nat × Nat) (t : Nat) :
    Nat × Nat × Nat × Nat × Nat :=
  ((rotl32 5 st.1 + sha1F t st.2.1 st.2.2.1 st.2.2.2.1 + st.2.2.2.2 + sha1K t
      + ws.getD t 0) % 4294967296,
    st.1, rotl32 30 st.2.1, st.2.2.1, st.2.2.2.1)

/-- SHA-1 compression of one 64-byte block. -/
def sha1Compress (st : SHA1State) (block : List Nat) : SHA1State :=
  let ws := sha1ExtendLoop 64 (toWords block)
  let r := (List.range 80).foldl (sha1Round ws) (st.h0, st.h1, st.h2, st.h3, st.h4)
  ⟨(st.h0 + r.1) % 4294967296, (st.h1 + r.2.1) % 4294967296,
    (st.h2 + r.2.2.1) % 4294967296, (st.h3 + r.2.2.2.1) % 4294967296,
    (st.h4 + r.2.2.2.2) % 4294967296⟩

/-- 64-byte blocks of a padded message. -/
def toBlocks : List Nat → List (List Nat)
  | [] => []
  | b :: rest => ((b :: rest).take 64) :: toBlocks (rest.drop 63)
termination_by l => l.length
decreasing_by
  simp only [List.length_drop, List.length_cons]
  omega

/-- SHA-1 initial chaining state. -/
def sha1Init : SHA1State := ⟨0x67452301, 0xEFCDAB89, 0x98BADCFE, 0x10325476, 0xC3D2E1F0⟩

/-- SHA-1 of a byte sequence (`crypto/sha1`, as used at src/main.go:648-651). -/
def sha1 (msg : List Nat) : List Nat :=
  let fin := (toBlocks (sha1Pad msg)).foldl sha1Compress sha1Init
  beBytes4 fin.h0 ++ beBytes4 fin.h1 ++ beBytes4 fin.h2 ++ beBytes4 fin.h3 ++ beBytes4 fin.h4

/-- UTF-8 bytes of one character. -/
def utf8Char (c : Char) : List Nat :=
  let n := c.toNat
  if n < 128 then [n]
  else if n < 2048 then [192 ||| (n >>> 6), 128 ||| (n &&& 63)]
  else if n < 65536 then
    [224 ||| (n >>> 12), 128 ||| ((n >>> 6) &&& 63), 128 ||| (n &&& 63)]
  else
    [240 ||| (n >>> 18), 128 ||| ((n >>> 12) &&& 63), 128 ||| ((n >>> 6) &&& 63),
      128 ||| (n &&& 63)]

/-- UTF-8 bytes of a string (Go `[]byte(s)`). -/
def utf8Encode (s : String) : List Nat := (s.data.map utf8Char).flatten

/-- The URL-safe base64 alphabet of Go `base64.URLEncoding`. -/
def b64Chars : List Char :=
  "ABCDEFGHIJKLMNOPQRSTUVWXYZabcdefghijklmnopqrstuvwxyz0123456789-_".data

/-- Character for one 6-bit group. -/
def b64Ch (n : Nat) : Char := b64Chars.getD n 'A'

/-- URL-safe base64 with padding, three input bytes per four output chars. -/
def b64Encode : List Nat → List Char
  | [] => []
  | [b1] => [b64Ch (b1 >>> 2), b64Ch ((b1 &&& 3) <<< 4), '=', '=']
  | [b1, b2] =>
    [b64Ch (b1 >>> 2), b64Ch (((b1 &&& 3) <<< 4) ||| (b2 >>> 4)),
      b64Ch ((b2 &&& 15) <<< 2), '=']
  | b1 :: b2 :: b3 :: rest =>
    b64Ch (b1 >>> 2) :: b64Ch (((b1 &&& 3) <<< 4) ||| (b2 >>> 4))
      :: b64Ch (((b2 &&& 15) <<< 2) ||| (b3 >>> 6)) :: b64Ch (b3 &&& 63) :: b64Encode rest

/-- `base64.URLEncoding.EncodeToString` (src/main.go:652). -/
def base64UrlEncode (bs : List Nat) : String := String.mk (b64Encode bs)

/-- The cache file name of a query text: URL-safe base64 of the SHA-1 digest
of the exact rendered query (src/main.go:648-655). -/
def cacheKey (q : String) : String := base64UrlEncode (sha1 (utf8Encode q))

/-- The observable state the cache layer manipulates: the cache directory
(file name to verbatim contents) and the bytes written to standard error. -/
structure FetchState where
  files : List (String × String)
  stderrOut : String
deriving DecidableEq

/-- One outcome of the network layer for one `http.Post`: a response with a
status code, status text, and body, or a transport failure. -/
inductive NetResp where
  | success (status : Nat) (statusText : String) (body : String)
  | failure (msg : String)
deriving DecidableEq

/-- Cache-directory read (`os.Open` by file name). -/
def lookupFile (files : List (String × String)) (k : String) : Option String :=
  List.lookup k files

/-- The cache-and-network portion of `queryResponseElements`
(src/main.go:647-688), over the rendered query text: on a cache hit the
stored body is returned and the network layer is untouched; on a miss the
head of `net` is consumed — a transport failure or a non-200 status is an
error (the non-200 body is copied to standard error, and the Go message also
interpolates the query kind and conditions, elided here); a 200 response
body is written to the cache file named `cacheKey q` before it is handed
back for decoding. An empty `net` models a disabled network layer. -/
def fetchBody (st : FetchState) (net : List NetResp) (q : String) :
    Except String String × FetchState × List NetResp :=
  match lookupFile st.files (cacheKey q) with
  | some body => (Except.ok body, st, net)
  | none =>
    match net with
    | [] => (Except.error "posting query: network unavailable", st, [])
    | NetResp.failure msg :: rest => (Except.error ("posting query: " ++ msg), st, rest)
    | NetResp.success status statusText body :: rest =>
      if status ≠ 200 then
        (Except.error ("posting query: unexpected status code " ++ toString status
            ++ " (" ++ statusText ++ ")"),
          { st with stderrOut := st.stderrOut ++ body }, rest)
      else
        (Except.ok body, { st with files := st.files ++ [(cacheKey q, body)] }, rest)

theorem charListLt_asymm : ∀ a b : List Char, charListLt a b = true → charListLt b a = false := by
  intro a
  induction a with
  | nil =>
    intro b h
    cases b with
    | nil => simp [charListLt] at h
    | cons y ys => simp [charListLt]
  | cons x xs ih =>
    intro b h
    cases b with
    | nil => simp [charListLt] at h
    | cons y ys =>
      simp only [charListLt] at h ⊢
      by_cases hxy : x < y
      · have hyx : ¬ y < x := lt_asymm hxy
        simp [hxy, hyx]
      · by_cases hyx : y < x
        · simp [hxy, hyx] at h
        · simp only [hxy, hyx, if_false] at h ⊢
          exact ih ys h

theorem charListLt_trans :
    ∀ a b c : List Char, charListLt a b = true → charListLt b c = true →
      charListLt a c = true := by
  intro a
  induction a with
  | nil =>
    intro b c hab hbc
    cases b with
    | nil => simp [charListLt] at hab
    | cons y ys =>
      cases c with
      | nil => simp [charListLt] at hbc
      | cons z zs => simp [charListLt]
  | cons x xs ih =>
    intro b c hab hbc
    cases b with
    | nil => simp [charListLt] at hab
    | cons y ys =>
      cases c with
      | nil => simp [charListLt] at hbc
      | cons z zs =>
        simp only [charListLt] at hab hbc ⊢
        by_cases hxy : x < y
        · by_cases hyz : y < z
          · simp [lt_trans hxy hyz]
          · by_cases hzy : z < y
            · simp [hyz, hzy] at hbc
            · have hyz' : y = z := le_antisymm (not_lt.mp hzy) (not_lt.mp hyz)
              simp [hyz' ▸ hxy]
        · by_cases hyx : y < x
          · simp [hxy, hyx] at hab
          · have hxy' : x = y := le_antisymm (not_lt.mp hyx) (not_lt.mp hxy)
            simp only [hxy, hyx, if_false] at hab
            by_cases hyz : y < z
            · simp [hxy' ▸ hyz]
            · by_cases hzy : z < y
              · simp [hyz, hzy] at hbc
              · simp only [hyz, hzy, if_false] at hbc
                have hxz : ¬ x < z := by rw [hxy']; exact hyz
                have hzx : ¬ z < x := by rw [hxy']; exact hzy
                simp only [hxz, hzx, if_false]
                exact ih ys zs hab hbc

theorem charListLt_conn :
    ∀ a b : List Char, charListLt a b = false → charListLt b a = false → a = b := by
  intro a
  induction a with
  | nil =>
    intro b hab _
    cases b with
    | nil => rfl
    | cons y ys => simp [charListLt] at hab
  | cons x xs ih =>
    intro b hab hba
    cases b with
    | nil => simp [charListLt] at hba
    | cons y ys =>
      simp only [charListLt] at hab hba
      by_cases hxy : x < y
      · simp [hxy] at hab
      · by_cases hyx : y < x
        · simp [hxy, hyx] at hba
        · have hxy' : x = y := le_antisymm (not_lt.mp hyx) (not_lt.mp hxy)
          simp only [hxy, hyx, if_false] at hab hba
          exact hxy' ▸ congrArg (x :: ·) (ih ys hab hba)

theorem strLtB_asymm : IsAsymmB strLtB := fun a b h => charListLt_asymm a.data b.data h

theorem strLtB_trans : IsTransB strLtB := fun a b d h1 h2 =>
  charListLt_trans a.data b.data d.data h1 h2

theorem strLtB_conn : IsConnB strLtB := by
  intro a b h1 h2
  cases a with
  | mk da =>
    cases b with
    | mk db => exact congrArg String.mk (charListLt_conn da db h1 h2)

theorem ratLtB_asymm : IsAsymmB ratLtB := fun a b h =>
  decide_eq_false (lt_asymm (of_decide_eq_true h))

theorem ratLtB_trans : IsTransB ratLtB := fun a b d h1 h2 =>
  decide_eq_true (lt_trans (of_decide_eq_true h1) (of_decide_eq_true h2))

theorem ratLtB_conn : IsConnB ratLtB := fun a b h1 h2 =>
  le_antisymm (not_lt.mp (of_decide_eq_false h2)) (not_lt.mp (of_decide_eq_false h1))

theorem irreflB {α : Type} {c : α → α → Bool} (hA : IsAsymmB c) (a : α) : c a a = false := by
  cases e : c a a with
  | false => rfl
  | true => have h := hA a a e; rw [e] at h; exact h

theorem trichotB {α : Type} {c : α → α → Bool} (hC : IsConnB c) {a b : α} (h : a ≠ b) :
    c a b = true ∨ c b a = true := by
  cases e1 : c a b with
  | true => exact Or.inl rfl
  | false =>
    cases e2 : c b a with
    | true => exact Or.inr rfl
    | false => exact absurd (hC a b e1 e2) h

theorem lexLt_asymm {α β : Type} {c₁ : α → α → Bool} {c₂ : β → β → Bool}
    (h₁ : IsAsymmB c₁) (h₂ : IsAsymmB c₂) : IsAsymmB (lexLt c₁ c₂) := by
  intro a b h
  unfold lexLt at h ⊢
  cases e1 : c₁ a.1 b.1 with
  | true => simp [e1, h₁ _ _ e1]
  | false =>
    cases e2 : c₁ b.1 a.1 with
    | true => simp [e1, e2] at h
    | false =>
      simp only [e1, e2, if_false, Bool.false_eq_true] at h ⊢
      exact h₂ _ _ h

theorem lexLt_ltTrans {α β : Type} {c₁ : α → α → Bool} {c₂ : β → β → Bool}
    (h₁t : IsTransB c₁) (h₁c : IsConnB c₁) (h₂t : IsTransB c₂) : IsTransB (lexLt c₁ c₂) := by
  intro a b c hab hbc
  unfold lexLt at hab hbc ⊢
  cases e1 : c₁ a.1 b.1 with
  | true =>
    cases e2 : c₁ b.1 c.1 with
    | true => simp [h₁t _ _ _ e1 e2]
    | false =>
      cases e3 : c₁ c.1 b.1 with
      | true => simp [e2, e3] at hbc
      | false =>
        have hbc1 : b.1 = c.1 := h₁c _ _ e2 e3
        simp [hbc1 ▸ e1]
  | false =>
    cases e2 : c₁ b.1 a.1 with
    | true => simp [e1, e2] at hab
    | false =>
      have hab1 : a.1 = b.1 := h₁c _ _ e1 e2
      simp only [e1, e2, if_false, Bool.false_eq_true] at hab
      cases e3 : c₁ b.1 c.1 with
      | true => simp [hab1 ▸ e3]
      | false =>
        cases e4 : c₁ c.1 b.1 with
        | true => simp [e3, e4] at hbc
        | false =>
          simp only [e3, e4, if_false, Bool.false_eq_true] at hbc
          have h13 : c₁ a.1 c.1 = false := hab1 ▸ e3
          have h31 : c₁ c.1 a.1 = false := hab1 ▸ e4
          simp only [h13, h31, if_false, Bool.false_eq_true]
          exact h₂t _ _ _ hab hbc

theorem lexLt_conn {α β : Type} {c₁ : α → α → Bool} {c₂ : β → β → Bool}
    (h₁ : IsConnB c₁) (h₂ : IsConnB c₂) : IsConnB (lexLt c₁ c₂) := by
  intro a b hab hba
  unfold lexLt at hab hba
  cases e1 : c₁ a.1 b.1 with
  | true => simp [e1] at hab
  | false =>
    cases e2 : c₁ b.1 a.1 with
    | true => simp [e1, e2] at hba
    | false =>
      simp only [e1, e2, if_false] at hab hba
      exact Prod.ext (h₁ _ _ e1 e2) (h₂ _ _ hab hba)

theorem pointKeyLt_asymm : IsAsymmB pointKeyLt :=
  lexLt_asymm strLtB_asymm
    (lexLt_asymm strLtB_asymm (lexLt_asymm strLtB_asymm (lexLt_asymm ratLtB_asymm ratLtB_asymm)))

theorem pointKeyLt_ltTrans : IsTransB pointKeyLt :=
  lexLt_ltTrans strLtB_trans strLtB_conn
    (lexLt_ltTrans strLtB_trans strLtB_conn
      (lexLt_ltTrans strLtB_trans strLtB_conn (lexLt_ltTrans ratLtB_trans ratLtB_conn ratLtB_trans)))

theorem pointKeyLt_conn : IsConnB pointKeyLt :=
  lexLt_conn strLtB_conn
    (lexLt_conn strLtB_conn (lexLt_conn strLtB_conn (lexLt_conn ratLtB_conn ratLtB_conn)))

theorem pointKey_inj {p q : Point} (h : pointKey p = pointKey q) : p = q := by
  cases p
  cases q
  simp only [pointKey, Prod.mk.injEq] at h
  obtain ⟨h1, h2, h3, h4, h5⟩ := h
  simp_all

theorem lexLt_cons_lt {α β : Type} {c₁ : α → α → Bool} {c₂ : β → β → Bool}
    {x y : α} {a b : β} (h : c₁ x y = true) : lexLt c₁ c₂ (x, a) (y, b) = true := by
  simp [lexLt, h]

theorem lexLt_cons_gt {α β : Type} {c₁ : α → α → Bool} {c₂ : β → β → Bool}
    {x y : α} {a b : β} (h : c₁ y x = true) (h' : c₁ x y = false) :
    lexLt c₁ c₂ (x, a) (y, b) = false := by
  simp [lexLt, h, h']

theorem lexLt_cons_eq {α β : Type} {c₁ : α → α → Bool} {c₂ : β → β → Bool}
    {x y : α} {a b : β} (h : c₁ x y = false) (h' : c₁ y x = false) :
    lexLt c₁ c₂ (x, a) (y, b) = c₂ a b := by
  simp [lexLt, h, h']

theorem poiLess_eq_key (p q : Point) :
    poiLess p q = pointKeyLt (pointKey p) (pointKey q) := by
  show poiLess p q
      = lexLt strLtB (lexLt strLtB (lexLt strLtB (lexLt ratLtB ratLtB)))
        (p.name, p.description, p.symbol, p.lat, p.lon)
        (q.name, q.description, q.symbol, q.lat, q.lon)
  by_cases hpq : p = q
  · subst hpq
    rw [poiLess, if_pos rfl]
    exact (irreflB pointKeyLt_asymm (pointKey p)).symm
  · rw [poiLess, if_neg hpq]
    by_cases hn : p.name = q.name
    · rw [if_neg (by simp [hn]),
        lexLt_cons_eq (show strLtB p.name q.name = false by
            rw [hn]; exact irreflB strLtB_asymm _)
          (show strLtB q.name p.name = false by rw [hn]; exact irreflB strLtB_asymm _)]
      by_cases hd : p.description = q.description
      · rw [if_neg (by simp [hd]),
          lexLt_cons_eq (show strLtB p.description q.description = false by
              rw [hd]; exact irreflB strLtB_asymm _)
            (show strLtB q.description p.description = false by
              rw [hd]; exact irreflB strLtB_asymm _)]
        by_cases hs : p.symbol = q.symbol
        · rw [if_neg (by simp [hs]),
            lexLt_cons_eq (show strLtB p.symbol q.symbol = false by
                rw [hs]; exact irreflB strLtB_asymm _)
              (show strLtB q.symbol p.symbol = false by rw [hs]; exact irreflB strLtB_asymm _)]
          by_cases hla : p.lat = q.lat
          · rw [if_neg (by simp [hla]),
              lexLt_cons_eq (show ratLtB p.lat q.lat = false by
                  rw [hla]; exact irreflB ratLtB_asymm _)
                (show ratLtB q.lat p.lat = false by rw [hla]; exact irreflB ratLtB_asymm _)]
            rfl
          · rw [if_pos hla]
            rcases lt_or_gt_of_ne hla with hlt | hgt
            · rw [lexLt_cons_lt (show ratLtB p.lat q.lat = true from decide_eq_true hlt)]
              exact decide_eq_true hlt
            · rw [lexLt_cons_gt (show ratLtB q.lat p.lat = true from decide_eq_true hgt)
                (show ratLtB p.lat q.lat = false from decide_eq_false (lt_asymm hgt))]
              exact decide_eq_false (lt_asymm hgt)
        · rw [if_pos hs]
          rcases trichotB strLtB_conn hs with hlt | hgt
          · rw [lexLt_cons_lt hlt]; exact hlt
          · rw [lexLt_cons_gt hgt (strLtB_asymm _ _ hgt)]; exact strLtB_asymm _ _ hgt
      · rw [if_pos hd]
        rcases trichotB strLtB_conn hd with hlt | hgt
        · rw [lexLt_cons_lt hlt]; exact hlt
        · rw [lexLt_cons_gt hgt (strLtB_asymm _ _ hgt)]; exact strLtB_asymm _ _ hgt
    · rw [if_pos hn]
      rcases trichotB strLtB_conn hn with hlt | hgt
      · rw [lexLt_cons_lt hlt]; exact hlt
      · rw [lexLt_cons_gt hgt (strLtB_asymm _ _ hgt)]; exact strLtB_asymm _ _ hgt

theorem poiLess_asymm {p q : Point} (h : poiLess p q = true) : poiLess q p = false := by
  rw [poiLess_eq_key] at h ⊢
  exact pointKeyLt_asymm _ _ h

theorem poiLess_transB {p q r : Point} (h1 : poiLess p q = true) (h2 : poiLess q r = true) :
    poiLess p r = true := by
  rw [poiLess_eq_key] at h1 h2 ⊢
  exact pointKeyLt_ltTrans _ _ _ h1 h2

theorem poiLess_conn {p q : Point} (h1 : poiLess p q = false) (h2 : poiLess q p = false) :
    p = q := by
  rw [poiLess_eq_key] at h1 h2
  exact pointKey_inj (pointKeyLt_conn _ _ h1 h2)

instance : IsTotal Point poiLE where
  total a b := by
    cases e : poiLess b a with
    | false => exact Or.inl e
    | true => exact Or.inr (poiLess_asymm e)

instance : IsTrans Point poiLE where
  trans a b c hab hbc := by
    show poiLess c a = false
    by_cases hab1 : a = b
    · subst hab1; exact hbc
    · by_cases hbc1 : b = c
      · subst hbc1; exact hab
      · have hab' : poiLess a b = true := by
          cases e2 : poiLess a b with
          | true => rfl
          | false => exact absurd (poiLess_conn e2 hab) hab1
        have hbc' : poiLess b c = true := by
          cases e2 : poiLess b c with
          | true => rfl
          | false => exact absurd (poiLess_conn e2 hbc) hbc1
        exact poiLess_asymm (poiLess_transB hab' hbc')

instance : IsAntisymm Point poiLE where
  antisymm a b hab hba := (poiLess_conn hba hab)

theorem resolveNameAux_eq_findSome (tags : Tags) (l : List String) :
    resolveNameAux tags l
      = match l.findSome? (fun t =>
          match lookupTag tags t with
          | some (TagVal.str n) => some n
          | _ => none) with
        | some n => Except.ok n
        | none => Except.error "no suitable tag for name" := by
  induction l with
  | nil => rfl
  | cons t rest ih =>
    simp only [resolveNameAux, List.findSome?_cons]
    cases hl : lookupTag tags t with
    | none => simpa using ih
    | some v =>
      cases v with
      | str n => rfl
      | num q => simpa using ih
      | boolean b => simpa using ih
      | null => simpa using ih

theorem resolveSymbolAux_eq_find (tags : Tags) (l : List (List (String × String) × String)) :
    resolveSymbolAux tags l
      = match l.find? (fun m => matcherMatches tags m.1) with
        | some m => m.2
        | none => "" := by
  induction l with
  | nil => rfl
  | cons m rest ih =>
    simp only [resolveSymbolAux, List.find?_cons]
    cases hm : matcherMatches tags m.1 with
    | true => simp
    | false => simpa using ih

/-- C3: the claim says a zero-point route must fail with an input error, and
the `no route points provided` check inside `queryRouteComponent` shows that
is the intent; but with zero points the chunk list is empty, the per-chunk
loop body (which contains that check) never runs, and `mainErr` succeeds
silently with no chunks and no output — the code, not the claim, is wrong. -/
theorem c3_zero_points_silent_success :
    buildSplits [] = []
      ∧ (∀ (γ : Type) (f : List LatLon → Except String γ), processRoute f [] = Except.ok [])
      ∧ (∀ (fmtF : ℚ → String) (locus : Int),
          queryRouteComponent fmtF locus [] = Except.error "no route points provided") := by
  have hsplits : buildSplits [] = [] := by simp [buildSplits, chunkLoop]
  refine ⟨hsplits, fun γ f => ?_, fun _ _ => rfl⟩
  simp [processRoute, hsplits]
  rfl

/-- C4: name resolution scans the fixed priority list
name, amenity, tourism, leisure, shop, waterway, natural, boundary and
returns the value of the first key present with a string value, failing with
the "no suitable tag for name" error otherwise; in particular
`{amenity: "cafe"}` resolves to "cafe" and a map with a `name` key resolves
to the display name. -/
theorem c4_name_resolution_priority :
    (∀ tags : Tags, resolveName tags = specResolveName tags)
      ∧ resolveName [("amenity", TagVal.str "cafe")] = Except.ok "cafe"
      ∧ resolveName [("name", TagVal.str "Joe\x27s"), ("amenity", TagVal.str "cafe")]
          = Except.ok "Joe\x27s"
      ∧ resolveName [("wikidata", TagVal.str "Q1"), ("surface", TagVal.str "asphalt")]
          = Except.error "no suitable tag for name" :=
  ⟨fun tags => resolveNameAux_eq_findSome tags nameTags, rfl, rfl, rfl⟩

/-- C5: symbol resolution returns the symbol of the first rule in the fixed
ordered matcher list all of whose key/value requirements hold, and the empty
string (never an error) when no rule matches; the two-key
`amenity=restaurant & cuisine=pizza` rule precedes the single-key
`amenity=restaurant` rule, so for tags carrying both pairs the earlier
rule's symbol "Pizza" wins. -/
theorem c5_symbol_resolution_first_match :
    (∀ tags : Tags, resolveSymbol tags = specResolveSymbol tags)
      ∧ symbolMatchers[17]? = some ([("amenity", "restaurant"), ("cuisine", "pizza")], "Pizza")
      ∧ symbolMatchers[18]? = some ([("amenity", "restaurant")], "Restaurant")
      ∧ resolveSymbol [("amenity", TagVal.str "restaurant"), ("cuisine", TagVal.str "pizza")]
          = "Pizza"
      ∧ resolveSymbol [("amenity", TagVal.str "restaurant")] = "Restaurant"
      ∧ resolveSymbol [("wikidata", TagVal.str "Q1")] = "" :=
  ⟨fun tags => resolveSymbolAux_eq_find tags symbolMatchers, rfl, rfl, by decide, by decide,
    by decide⟩

/-- C1: on a cache miss, a first fetch whose network request succeeds with
body B writes B verbatim to the cache file named by the URL-safe base64
encoding of the SHA-1 digest of the query text before B is handed back for
decoding, and every subsequent fetch of the identical query text returns
that stored body from the cache without consuming any network response
(write then read is the identity). -/
theorem c1_cache_roundtrip (q statusText B : String) (rest : List NetResp) (st : FetchState)
    (h : lookupFile st.files (cacheKey q) = none) :
    fetchBody st (NetResp.success 200 statusText B :: rest) q
        = (Except.ok B, ⟨st.files ++ [(cacheKey q, B)], st.stderrOut⟩, rest)
      ∧ ∀ net' : List NetResp,
          fetchBody ⟨st.files ++ [(cacheKey q, B)], st.stderrOut⟩ net' q
            = (Except.ok B, ⟨st.files ++ [(cacheKey q, B)], st.stderrOut⟩, net') := by
  obtain ⟨files, errOut⟩ := st
  simp only [lookupFile] at h
  constructor
  · simp [fetchBody, lookupFile, h]
  · intro net'
    have hl : lookupFile (files ++ [(cacheKey q, B)]) (cacheKey q) = some B := by
      simp [lookupFile, List.lookup_append, h, List.lookup_cons]
    simp [fetchBody, hl]

theorem c1_cache_roundtrip_witness :
    lookupFile ([] : List (String × String)) (cacheKey "QW") = none
      ∧ fetchBody ⟨[], ""⟩ [NetResp.success 200 "200 OK" "BODY"] "QW"
          = (Except.ok "BODY", ⟨[(cacheKey "QW", "BODY")], ""⟩, [])
      ∧ fetchBody ⟨[(cacheKey "QW", "BODY")], ""⟩ [] "QW"
          = (Except.ok "BODY", ⟨[(cacheKey "QW", "BODY")], ""⟩, []) :=
  ⟨rfl, (c1_cache_roundtrip "QW" "200 OK" "BODY" [] ⟨[], ""⟩ rfl).1,
    (c1_cache_roundtrip "QW" "200 OK" "BODY" [] ⟨[], ""⟩ rfl).2 []⟩

/-- C2 (amended): on a cache miss where the POST returns a non-200 status,
the fetch fails with an error naming the status code and status text, makes
no retry (exactly the one queued response is consumed), writes nothing to
the cache, and the response body is written to standard error for
diagnostics — it is not embedded in the returned error value. -/
theorem c2_status_failure (q statusText B : String) (status : Nat) (rest : List NetResp)
    (st : FetchState) (h : lookupFile st.files (cacheKey q) = none) (hs : status ≠ 200) :
    fetchBody st (NetResp.success status statusText B :: rest) q
      = (Except.error ("posting query: unexpected status code " ++ toString status
            ++ " (" ++ statusText ++ ")"),
        ⟨st.files, st.stderrOut ++ B⟩, rest) := by
  obtain ⟨files, errOut⟩ := st
  simp only [lookupFile] at h
  simp [fetchBody, lookupFile, h, hs]

theorem c2_status_failure_witness :
    lookupFile ([] : List (String × String)) (cacheKey "QX") = none
      ∧ (500 : Nat) ≠ 200
      ∧ fetchBody ⟨[], ""⟩ [NetResp.success 500 "500 Internal Server Error" "oops"] "QX"
          = (Except.error ("posting query: unexpected status code " ++ toString (500 : Nat)
                ++ " (" ++ "500 Internal Server Error" ++ ")"),
            ⟨[], "" ++ "oops"⟩, []) :=
  ⟨rfl, by decide,
    c2_status_failure "QX" "500 Internal Server Error" "oops" 500 [] ⟨[], ""⟩ rfl (by decide)⟩

/-- C2 counterexample: on a cache miss answered with status 500 and body
"UPSTREAM_BODY", the fetch fails after its single attempt, but the response
body is not part of the returned error — it goes to standard error — so the
claim that the body is surfaced as part of the returned error is false. -/
theorem c2_counterexample :
    fetchBody ⟨[], ""⟩ [NetResp.success 500 "500 Internal Server Error" "UPSTREAM_BODY"] "QC"
        = (Except.error "posting query: unexpected status code 500 (500 Internal Server Error)",
          ⟨[], "UPSTREAM_BODY"⟩, [])
      ∧ ¬ ("UPSTREAM_BODY".data
          <:+: "posting query: unexpected status code 500 (500 Internal Server Error)".data) := by
  constructor
  · set_option maxRecDepth 8192 in rfl
  · set_option maxRecDepth 100000 in decide

theorem statsLoop_eq_none_iff (l : List (String × TagVal)) :
    ∀ acc, statsLoop acc l = none ↔ ∃ kv ∈ l, kv.2.isString = false := by
  induction l with
  | nil => intro acc; simp [statsLoop]
  | cons kv rest ih =>
    intro acc
    obtain ⟨tag, v⟩ := kv
    cases v with
    | str s => simp [statsLoop, ih, TagVal.isString]
    | num q => simp [statsLoop, TagVal.isString]
    | boolean b => simp [statsLoop, TagVal.isString]
    | null => simp [statsLoop, TagVal.isString]

/-- C10 (amended): one call of the closure returned by `point()` panics
exactly when name resolution succeeds and some tag value is not a string;
with every value a string it always returns a `Point` or an error, and with
a non-string value but no name-resolvable key it returns an error rather
than panicking. -/
theorem c10_point_panic_characterization (tags : Tags) (ll : LatLon) :
    pointCall tags ll = callResult.panicked
      ↔ ((resolveName tags).isOk = true ∧ ∃ kv ∈ tags, kv.2.isString = false) := by
  unfold pointCall
  cases hr : resolveName tags with
  | error e =>
    apply iff_of_false
    · intro hcon
      exact callResult.noConfusion hcon
    · rintro ⟨hok, -⟩
      exact Bool.noConfusion hok
  | ok name =>
    cases hs : statsLoop ([], []) tags with
    | none => exact iff_of_true rfl ⟨rfl, (statsLoop_eq_none_iff tags ([], [])).mp hs⟩
    | some st =>
      apply iff_of_false
      · intro hcon
        exact callResult.noConfusion hcon
      · rintro ⟨-, hex⟩
        have h2 := (statsLoop_eq_none_iff tags ([], [])).mpr hex
        rw [hs] at h2
        exact Option.noConfusion h2

/-- C10 counterexample: the tag map `{verse: 42}` contains a non-string
value, yet the call does not panic — name resolution fails first and the
call returns an error — refuting the claimed "panic-free exactly when every
value is a string". -/
theorem c10_counterexample :
    (∃ kv ∈ ([("verse", TagVal.num 42)] : Tags), kv.2.isString = false)
      ∧ pointCall [("verse", TagVal.num 42)] ⟨0, 0⟩
          = callResult.errored "resolving name from tags: no suitable tag for name"
      ∧ pointCall [("verse", TagVal.num 42)] ⟨0, 0⟩ ≠ callResult.panicked := by
  refine ⟨⟨("verse", TagVal.num 42), by simp, rfl⟩, rfl, ?_⟩
  decide

theorem renderCond_valid {c : condition} (h : exactlyOneMode c) :
    renderCond c = Except.ok (conditionFilters c) := by
  rcases h with ⟨hv, hn, he⟩ | ⟨hv, hn, he⟩ | ⟨hv, hn, he⟩
  · have hvl : c.values.length > 0 := List.length_pos.mpr hv
    simp [renderCond, conditionFilters, hv, hn, he, hvl]
  · have hnl : c.notValues.length > 0 := List.length_pos.mpr hn
    simp [renderCond, conditionFilters, hv, hn, he, hnl]
  · rcases he with he | he
    · simp [renderCond, conditionFilters, hv, hn, he]
    · simp [renderCond, conditionFilters, hv, hn, he]

theorem renderCond_invalid {c : condition} (h : ¬ exactlyOneMode c) :
    renderCond c = Except.error (condFailMsg c) := by
  by_cases hv : c.values = []
  · by_cases hn : c.notValues = []
    · by_cases he0 : c.existsMode = 0
      · simp [renderCond, condFailMsg, hv, hn, he0]
      · have he1 : c.existsMode ≠ 1 := fun h1 =>
          h (Or.inr (Or.inr ⟨hv, hn, Or.inl h1⟩))
        have he2 : c.existsMode ≠ 2 := fun h2 =>
          h (Or.inr (Or.inr ⟨hv, hn, Or.inr h2⟩))
        simp [renderCond, condFailMsg, hv, hn, he0, he1, he2]
    · by_cases he0 : c.existsMode = 0
      · exact absurd (Or.inr (Or.inl ⟨hv, hn, he0⟩)) h
      · have hnl : c.notValues.length > 0 := List.length_pos.mpr hn
        simp [renderCond, condFailMsg, hv, hn, he0, hnl]
  · by_cases hn : c.notValues = []
    · by_cases he0 : c.existsMode = 0
      · exact absurd (Or.inl ⟨hv, hn, he0⟩) h
      · have hvl : c.values.length > 0 := List.length_pos.mpr hv
        simp [renderCond, condFailMsg, hn, he0, hvl]
    · have hvl : c.values.length > 0 := List.length_pos.mpr hv
      have hnl : c.notValues.length > 0 := List.length_pos.mpr hn
      simp [renderCond, condFailMsg, hvl, hnl]

theorem renderConds_valid {conds : List condition} (h : ∀ c ∈ conds, exactlyOneMode c) :
    renderConds conds = Except.ok ((conds.map conditionFilters).flatten) := by
  induction conds with
  | nil => rfl
  | cons c rest ih =>
    rw [renderConds, renderCond_valid (h c (by simp)), ih (fun a ha => h a (by simp [ha]))]
    rfl

theorem renderConds_first_error {pre : List condition} {c : condition} {post : List condition}
    (hpre : ∀ c' ∈ pre, exactlyOneMode c') (hc : ¬ exactlyOneMode c) :
    renderConds (pre ++ c :: post) = Except.error (condFailMsg c) := by
  induction pre with
  | nil => rw [List.nil_append, renderConds, renderCond_invalid hc]
  | cons p ps ih =>
    rw [List.cons_append, renderConds, renderCond_valid (hpre p (by simp)),
      ih (fun a ha => hpre a (by simp [ha]))]

theorem renderConds_isOk_iff (conds : List condition) :
    (renderConds conds).isOk = true ↔ ∀ c ∈ conds, exactlyOneMode c := by
  induction conds with
  | nil => simp [renderConds]; rfl
  | cons c rest ih =>
    constructor
    · intro hok
      by_cases hc : exactlyOneMode c
      · rw [renderConds, renderCond_valid hc] at hok
        intro a ha
        rcases List.mem_cons.mp ha with rfl | ha'
        · exact hc
        · cases hr : renderConds rest with
          | error e => rw [hr] at hok; exact Bool.noConfusion hok
          | ok fss => exact (ih.mp (by rw [hr]; rfl)) a ha'
      · rw [renderConds, renderCond_invalid hc] at hok
        exact Bool.noConfusion hok
    · intro hall
      rw [renderConds_valid hall]
      rfl

/-- C8: for conditions that each have exactly one active mode, the compiler
renders deterministically — a value set as one anchored alternation filter,
a value exclusion as one inequality filter per excluded value, existence as
the bare presence filter and non-existence as the negated filter — and
concatenates the bracketed filters in condition-list order between the fixed
header and the route clause. -/
theorem c8_condition_rendering (t : String) (conds : List condition) (route : String)
    (h : ∀ c ∈ conds, exactlyOneMode c) :
    renderQuery t conds route
      = Except.ok ("[out:json];" ++ t
          ++ String.join (((conds.map conditionFilters).flatten).map (fun f => "[" ++ f ++ "]"))
          ++ route) := by
  unfold renderQuery
  rw [renderConds_valid h]

theorem c8_condition_rendering_witness :
    (∀ c ∈ ([⟨"amenity", 0, ["bar", "cafe"], [], 0⟩, ⟨"waterway", 0, [], ["drain", "dam"], 0⟩,
          ⟨"drinking_water", 0, [], [], 1⟩, ⟨"fee", 0, [], [], 2⟩] : List condition),
        exactlyOneMode c)
      ∧ renderQuery "node"
            [⟨"amenity", 0, ["bar", "cafe"], [], 0⟩, ⟨"waterway", 0, [], ["drain", "dam"], 0⟩,
              ⟨"drinking_water", 0, [], [], 1⟩, ⟨"fee", 0, [], [], 2⟩]
            "(around:80,1.000000,2.000000);"
          = Except.ok ("[out:json];node[amenity~\"^(bar|cafe)$\"][waterway!=\"drain\"]"
              ++ "[waterway!=\"dam\"][drinking_water][!fee](around:80,1.000000,2.000000);") :=
  ⟨by decide,
    c8_condition_rendering "node"
      [⟨"amenity", 0, ["bar", "cafe"], [], 0⟩, ⟨"waterway", 0, [], ["drain", "dam"], 0⟩,
        ⟨"drinking_water", 0, [], [], 1⟩, ⟨"fee", 0, [], [], 2⟩]
      "(around:80,1.000000,2.000000);" (by decide)⟩

/-- C9: query compilation succeeds exactly when every condition has one
active mode, and when some condition is invalid it fails with the validation
error determined by the first offending condition. -/
theorem c9_condition_validation (t : String) (conds : List condition) (route : String) :
    ((renderQuery t conds route).isOk = true ↔ ∀ c ∈ conds, exactlyOneMode c)
      ∧ ∀ pre c post, conds = pre ++ c :: post → (∀ c' ∈ pre, exactlyOneMode c') →
          ¬ exactlyOneMode c → renderQuery t conds route = Except.error (condFailMsg c) := by
  constructor
  · have hgate : (renderQuery t conds route).isOk = (renderConds conds).isOk := by
      unfold renderQuery
      cases hr : renderConds conds with
      | error e => rfl
      | ok fs => rfl
    rw [hgate]
    exact renderConds_isOk_iff conds
  · intro pre c post hdec hpre hc
    subst hdec
    unfold renderQuery
    rw [renderConds_first_error hpre hc]

theorem c9_condition_validation_witness :
    ((renderQuery "node" [⟨"amenity", 0, ["bar"], ["pub"], 0⟩] "RT").isOk = true
        ↔ ∀ c ∈ ([⟨"amenity", 0, ["bar"], ["pub"], 0⟩] : List condition), exactlyOneMode c)
      ∧ renderQuery "node" [⟨"amenity", 0, ["bar"], ["pub"], 0⟩] "RT"
          = Except.error (condFailMsg ⟨"amenity", 0, ["bar"], ["pub"], 0⟩) :=
  ⟨(c9_condition_validation "node" [⟨"amenity", 0, ["bar"], ["pub"], 0⟩] "RT").1,
    (c9_condition_validation "node" [⟨"amenity", 0, ["bar"], ["pub"], 0⟩] "RT").2
      [] ⟨"amenity", 0, ["bar"], ["pub"], 0⟩ [] rfl (by simp) (by decide)⟩

theorem centreLoop_isOk_false_iff (ns : List (Int × element)) (n : Nat) (l : List Int) :
    ∀ acc, (centreLoop ns n acc l).isOk = false ↔ ∃ i ∈ l, List.lookup i ns = none := by
  induction l with
  | nil =>
    intro acc
    simp [centreLoop, Except.isOk, Except.toBool]
  | cons i rest ih =>
    intro acc
    cases hl : List.lookup i ns with
    | none =>
      simp only [centreLoop, hl]
      exact iff_of_true rfl ⟨i, by simp, hl⟩
    | some nd =>
      simp only [centreLoop, hl]
      rw [ih _]
      constructor
      · rintro ⟨j, hj, hjn⟩
        exact ⟨j, List.mem_cons_of_mem _ hj, hjn⟩
      · rintro ⟨j, hj, hjn⟩
        rcases List.mem_cons.mp hj with rfl | hj'
        · rw [hl] at hjn; exact Option.noConfusion hjn
        · exact ⟨j, hj', hjn⟩

theorem wayCentreOf_isOk_false_iff (ns : List (Int × element)) (w : element) :
    (wayCentreOf ns w).isOk = false
      ↔ (w.nodes = [] ∨ ∃ i ∈ w.nodes, List.lookup i ns = none) := by
  by_cases h0 : w.nodes.length = 0
  · have hnil : w.nodes = [] := List.length_eq_zero.mp h0
    rw [wayCentreOf, if_pos h0]
    exact iff_of_true rfl (Or.inl hnil)
  · have hne : w.nodes ≠ [] := fun hh => h0 (by rw [hh]; rfl)
    rw [wayCentreOf, if_neg h0]
    cases hc : centreLoop ns w.nodes.length ⟨0, 0⟩ w.nodes with
    | error e =>
      have hiff := centreLoop_isOk_false_iff ns w.nodes.length w.nodes ⟨0, 0⟩
      rw [hc] at hiff
      exact iff_of_true rfl (Or.inr (hiff.mp rfl))
    | ok cRes =>
      have hiff := centreLoop_isOk_false_iff ns w.nodes.length w.nodes ⟨0, 0⟩
      rw [hc] at hiff
      apply iff_of_false
      · intro hcon
        exact Bool.noConfusion hcon
      · rintro (hnil | hex)
        · exact hne hnil
        · exact Bool.noConfusion (hiff.mpr hex)

theorem wayCentresLoop_isOk_false_iff (ns : List (Int × element)) (ws : List (Int × element)) :
    (wayCentresLoop ns ws).isOk = false
      ↔ ∃ kv ∈ ws, (wayCentreOf ns kv.2).isOk = false := by
  induction ws with
  | nil => simp [wayCentresLoop, Except.isOk, Except.toBool]
  | cons kv rest ih =>
    cases hw : wayCentreOf ns kv.2 with
    | error e =>
      simp only [wayCentresLoop, hw]
      exact iff_of_true rfl ⟨kv, by simp, by rw [hw]; rfl⟩
    | ok wc =>
      simp only [wayCentresLoop, hw]
      cases hr : wayCentresLoop ns rest with
      | error e =>
        obtain ⟨kv', hkv', hkv'f⟩ := ih.mp (by rw [hr]; rfl)
        exact iff_of_true rfl ⟨kv', by simp [hkv'], hkv'f⟩
      | ok wcs =>
        apply iff_of_false
        · intro hcon
          exact Bool.noConfusion hcon
        · rintro ⟨kv', hkv', hf⟩
          rcases List.mem_cons.mp hkv' with rfl | h'
          · rw [hw] at hf; exact Bool.noConfusion hf
          · have hcontr := ih.mpr ⟨kv', h', hf⟩
            rw [hr] at hcontr
            exact Bool.noConfusion hcontr

/-- C7: the aggregator fails with an error — producing no centroid list —
exactly when some way in the batch's way map has zero referenced node ids or
references a node id absent from the batch's node map; in particular it
fails (and does not silently skip) whenever such a way exists. -/
theorem c7_aggregator_referential_integrity (elems : List element)
    (ns ws : List (Int × element))
    (hp : partitionElems ([], []) elems = Except.ok (ns, ws)) :
    (wayCentres elems).isOk = false
      ↔ ∃ kv ∈ ws, kv.2.nodes = [] ∨ ∃ i ∈ kv.2.nodes, List.lookup i ns = none := by
  unfold wayCentres
  rw [hp]
  show (wayCentresLoop ns ws).isOk = false ↔ _
  rw [wayCentresLoop_isOk_false_iff]
  simp only [wayCentreOf_isOk_false_iff]

theorem c7_aggregator_referential_integrity_witness :
    partitionElems ([], []) [⟨"node", 1, 1, 2, [], []⟩, ⟨"way", 10, 0, 0, [1, 2], []⟩]
        = Except.ok ([(1, ⟨"node", 1, 1, 2, [], []⟩)], [(10, ⟨"way", 10, 0, 0, [1, 2], []⟩)])
      ∧ (wayCentres [⟨"node", 1, 1, 2, [], []⟩, ⟨"way", 10, 0, 0, [1, 2], []⟩]).isOk = false
      ∧ ((wayCentres [⟨"node", 1, 1, 2, [], []⟩, ⟨"way", 10, 0, 0, [1, 2], []⟩]).isOk = false
          ↔ ∃ kv ∈ [((10 : Int), (⟨"way", 10, 0, 0, [1, 2], []⟩ : element))],
              kv.2.nodes = [] ∨ ∃ i ∈ kv.2.nodes,
                List.lookup i [((1 : Int), (⟨"node", 1, 1, 2, [], []⟩ : element))] = none) :=
  ⟨rfl, rfl,
    c7_aggregator_referential_integrity
      [⟨"node", 1, 1, 2, [], []⟩, ⟨"way", 10, 0, 0, [1, 2], []⟩]
      [(1, ⟨"node", 1, 1, 2, [], []⟩)] [(10, ⟨"way", 10, 0, 0, [1, 2], []⟩)] rfl⟩

/-- C6: the sorted output is a permutation of the input POIs, sorted by
name, then description, then symbol, then latitude, then longitude, and any
permutation of the same POIs that is sorted for that order is equal to it —
one unique total order, independent of discovery order, including for
records identical in all five fields. -/
theorem c6_output_ordering (l : List Point) :
    (sortPois l).Perm l ∧ (sortPois l).Sorted poiLE
      ∧ ∀ l' : List Point, l'.Perm l → l'.Sorted poiLE → l' = sortPois l := by
  refine ⟨List.perm_insertionSort poiLE l, List.sorted_insertionSort poiLE l, ?_⟩
  intro l' hperm hsort
  exact List.eq_of_perm_of_sorted (hperm.trans (List.perm_insertionSort poiLE l).symm)
    hsort (List.sorted_insertionSort poiLE l)

theorem c6_output_ordering_witness :
    ([⟨"A", 0, 0, "", ""⟩, ⟨"B", 0, 0, "", ""⟩] : List Point).Perm
        [⟨"B", 0, 0, "", ""⟩, ⟨"A", 0, 0, "", ""⟩]
      ∧ ([⟨"A", 0, 0, "", ""⟩, ⟨"B", 0, 0, "", ""⟩] : List Point).Sorted poiLE
      ∧ [⟨"A", 0, 0, "", ""⟩, ⟨"B", 0, 0, "", ""⟩]
          = sortPois [⟨"B", 0, 0, "", ""⟩, ⟨"A", 0, 0, "", ""⟩] := by
  have hperm : ([⟨"A", 0, 0, "", ""⟩, ⟨"B", 0, 0, "", ""⟩] : List Point).Perm
      [⟨"B", 0, 0, "", ""⟩, ⟨"A", 0, 0, "", ""⟩] := by decide
  have hsort : ([⟨"A", 0, 0, "", ""⟩, ⟨"B", 0, 0, "", ""⟩] : List Point).Sorted poiLE := by
    decide
  exact ⟨hperm, hsort,
    (c6_output_ordering [⟨"B", 0, 0, "", ""⟩, ⟨"A", 0, 0, "", ""⟩]).2.2 _ hperm hsort⟩

example : resolveName [("amenity", TagVal.str "cafe")] = Except.ok "cafe" := rfl
example : resolveName [("name", TagVal.str "Joe\x27s"), ("amenity", TagVal.str "cafe")]
    = Except.ok "Joe\x27s" := rfl
example : resolveSymbol [("amenity", TagVal.str "restaurant"), ("cuisine", TagVal.str "pizza")]
    = "Pizza" := by decide
example : resolveSymbol [("wikidata", TagVal.str "Q1")] = "" := by decide
